import Mathlib

/-!
Verification of the real-time conversation synchronization core
(client/src/lib/services/conversations.ts and client/src/lib/services/search.ts).

The Supabase store is embedded as an explicit relational state `DB`; each
service method becomes a pure state-passing function returning the method's
result together with the next store state.  Store reads and well-formed
writes succeed in this model; a write whose payload names keys that are not
columns of the target table is rejected by the store (the tables are
snake_case per the migrations, while several service payloads are camelCase —
modelled by explicit column/key lists), and a filter built from an undefined
value errors at the store.  The one multi-row write whose failure the code
compensates for (`createConversation`'s participant bulk insert) takes an
explicit fault-injection flag.  Wall-clock fields (`timestamp`, `created_at`,
`updated_at`, `lastTyped`) are not modelled.
-/

namespace AnyoneHub

/-- A row of `messages` (shared/schema `Message`, time fields omitted). -/
structure Msg where
  id : Nat
  conversationId : Nat
  senderId : Nat
  content : String
  mediaUrl : Option String
  mediaType : Option String
  isLiked : Bool
  isSaved : Bool
  transcription : Option String
  isTranscribed : Bool
  deriving Repr, DecidableEq

/-- A row of `message_reactions`: the (message_id, user_id, emoji) triple
(the surrogate id and created_at columns are omitted). -/
structure Reaction where
  messageId : Nat
  userId : Nat
  emoji : String
  deriving Repr, DecidableEq

/-- One value of the per-emoji aggregate entry `{ count, userIds }` built by
`updateReactionCounts`. -/
structure EmojiCount where
  count : Nat
  userIds : List Nat
  deriving Repr, DecidableEq

/-- The JS object `counts : Record<string, {count, userIds}>`, kept in key
insertion order as an association list. -/
abbrev Counts := List (String × EmojiCount)

/-- The relational store: `conversations` (row ids), `conversation_participants`
(conversation_id, user_id), `messages`, `message_reactions`, and
`message_reaction_counts` keyed by message_id.  The `next…` counters model the
store's id generation for inserted rows. -/
structure DB where
  conversations : List Nat
  participants : List (Nat × Nat)
  messages : List Msg
  reactions : List Reaction
  reactionCounts : List (Nat × Counts)
  nextConversationId : Nat
  nextMessageId : Nat
  deriving Repr, DecidableEq

/-- `.from('messages').select(…).eq('id', id).single()`. -/
def findMessage (db : DB) (id : Nat) : Option Msg :=
  db.messages.find? (fun m => m.id == id)

/-- The user ids holding a `conversation_participants` row for conversation
`c`, in row order (the join in `getConversationParticipants`). -/
def participantsOf (db : DB) (c : Nat) : List Nat :=
  (db.participants.filter (fun p => p.1 == c)).map (fun p => p.2)

/-- `ConversationService.getConversationParticipants`: fetch the participant
list, then reject callers that are not in it. -/
def getConversationParticipants (db : DB) (c u : Nat) : Except String (List Nat) :=
  let ps := participantsOf db c
  if u ∈ ps then Except.ok ps
  else Except.error "Not authorized to view participants in this conversation"

/-- The code's not-authorized error strings (the spec taxonomy's
`NotAuthorized` class). -/
def notAuthorizedMessages : List String :=
  [ "Not authorized to view participants in this conversation"
  , "Not authorized to send messages in this conversation"
  , "Not authorized to update this message"
  , "Not authorized to react to this message"
  , "Not authorized to remove reaction from this message" ]

/-- `ConversationService.createConversation`.  `participantInsertFails`
injects the store failure of the participant bulk insert that the code
compensates for; the bulk insert is a single statement, so on failure it
inserts no rows. -/
def createConversation (db : DB) (participantIds : List Nat)
    (participantInsertFails : Bool) : Except String Nat × DB :=
  let cid := db.nextConversationId
  let db1 : DB := { db with conversations := db.conversations ++ [cid],
                            nextConversationId := cid + 1 }
  if participantInsertFails then
    -- clean up conversation if adding participants fails
    let db2 : DB := { db1 with conversations := db1.conversations.filter (fun c => c != cid) }
    (Except.error "Failed to add participants to conversation", db2)
  else
    let inserts := participantIds.map (fun u => (cid, u))
    (Except.ok cid, { db1 with participants := db1.participants ++ inserts })

/-- The columns of the `messages` table (migration 20250913221746). -/
def messagesColumns : List String :=
  [ "id", "conversation_id", "sender_id", "content", "media_url", "media_type"
  , "transcription", "is_transcribed", "is_liked", "is_saved", "timestamp" ]

/-- The keys of the insert payload `sendMessage` builds (the `InsertMessage`
object): camelCase, unlike the table's snake_case columns. -/
def messageInsertKeys : List String :=
  ["conversationId", "senderId", "content", "mediaUrl", "mediaType"]

/-- The store error surfaced (as `error.message`) when an insert payload
names a key that is not a column of the target table; the write is rejected
and no row is inserted.  Here: the conversationId key of the messages
payload. -/
def messageInsertColumnError : String :=
  "Could not find the conversationId column of messages in the schema cache"

/-- `ConversationService.sendMessage`: membership check, then insert the
message row.  The code never validates `content`, and its insert payload uses
camelCase keys against the snake_case `messages` columns, so the store
rejects the insert whenever it is reached. -/
def sendMessage (db : DB) (conversationId senderId : Nat) (content : String)
    (mediaUrl mediaType : Option String) : Except String Msg × DB :=
  match getConversationParticipants db conversationId senderId with
  | Except.error e => (Except.error e, db)
  | Except.ok ps =>
    if senderId ∈ ps then
      let msg : Msg :=
        { id := db.nextMessageId, conversationId := conversationId,
          senderId := senderId, content := content,
          mediaUrl := mediaUrl, mediaType := mediaType,
          isLiked := false, isSaved := false,
          transcription := none, isTranscribed := false }
      if messageInsertKeys.all (fun k => messagesColumns.contains k) then
        (Except.ok msg,
          { db with messages := db.messages ++ [msg],
                    nextMessageId := db.nextMessageId + 1 })
      else (Except.error messageInsertColumnError, db)
    else (Except.error "Not authorized to send messages in this conversation", db)

/-- The `UpdateMessage` patch (updateMessageSchema): every field optional. -/
structure UpdateMessagePatch where
  isLiked : Option Bool
  isSaved : Option Bool
  transcription : Option String
  isTranscribed : Option Bool
  deriving Repr, DecidableEq

/-- Apply an `UpdateMessage` patch to a row (`undefined` fields are dropped
from the update statement, so absent options leave the column unchanged). -/
def applyUpdate (m : Msg) (p : UpdateMessagePatch) : Msg :=
  { m with isLiked := p.isLiked.getD m.isLiked,
           isSaved := p.isSaved.getD m.isSaved,
           transcription := (p.transcription.map some).getD m.transcription,
           isTranscribed := p.isTranscribed.getD m.isTranscribed }

/-- Reading `message.conversationId` off the row that `select(*)` returned:
the row's property is `conversation_id` (snake_case), so the camelCase read
yields undefined — there is no value, whatever the row holds. -/
def rowConversationIdCamel (_ : Msg) : Option Nat := none

/-- The store error for a membership query whose filter was built from an
undefined value (`conversation_id=eq.undefined` fails integer parsing). -/
def undefinedFilterError : String :=
  "invalid input syntax for type integer: undefined"

/-- `getConversationParticipants` as called with a possibly-undefined
conversation id: an undefined id makes the query itself error at the store. -/
def getConversationParticipantsU (db : DB) (c : Option Nat) (u : Nat) :
    Except String (List Nat) :=
  match c with
  | none => Except.error undefinedFilterError
  | some cid => getConversationParticipants db cid u

/-- `ConversationService.updateMessage`: fetch the message, re-check
membership using `message.conversationId` — which is undefined on the
snake_case row — then update the row.  The membership query therefore errors
for every existing message and the update is never reached. -/
def updateMessage (db : DB) (messageId userId : Nat) (p : UpdateMessagePatch) :
    Except String Msg × DB :=
  match findMessage db messageId with
  | none => (Except.error "Message not found", db)
  | some msg =>
    match getConversationParticipantsU db (rowConversationIdCamel msg) userId with
    | Except.error e => (Except.error e, db)
    | Except.ok ps =>
      if userId ∈ ps then
        (Except.ok (applyUpdate msg p),
          { db with messages :=
              db.messages.map (fun m => if m.id == messageId then applyUpdate m p else m) })
      else (Except.error "Not authorized to update this message", db)

/-- One step of the `reactions?.forEach` loop in `updateReactionCounts`:
update the emoji's entry in place, or append a fresh entry for a new emoji
(JS object keys keep insertion order). -/
def addRow : Counts → Reaction → Counts
  | [], r => [(r.emoji, { count := 1, userIds := [r.userId] })]
  | (e, c) :: rest, r =>
    if e = r.emoji then
      (e, { count := c.count + 1, userIds := c.userIds ++ [r.userId] }) :: rest
    else (e, c) :: addRow rest r

/-- The `counts` object built by `updateReactionCounts` from the reaction rows
of one message, in row order. -/
def buildCounts (rows : List Reaction) : Counts :=
  rows.foldl addRow []

/-- The `message_reactions` rows of message `m`, in row order. -/
def reactionsFor (db : DB) (m : Nat) : List Reaction :=
  db.reactions.filter (fun r => r.messageId == m)

/-- `.upsert(…, { onConflict: 'message_id' })` on `message_reaction_counts`:
replace the row keyed by `m` in place, or append it. -/
def upsertCounts : List (Nat × Counts) → Nat → Counts → List (Nat × Counts)
  | [], m, c => [(m, c)]
  | (k, v) :: rest, m, c =>
    if k = m then (m, c) :: rest else (k, v) :: upsertCounts rest m c

/-- `ConversationService.updateReactionCounts`: read all reaction rows of the
message, rebuild the counts object wholesale, upsert the aggregate row. -/
def updateReactionCounts (db : DB) (messageId : Nat) : DB :=
  { db with reactionCounts :=
      upsertCounts db.reactionCounts messageId (buildCounts (reactionsFor db messageId)) }

/-- The columns of the `message_reactions` table (migration in
src/unnamed/part_001). -/
def messageReactionsColumns : List String :=
  ["id", "message_id", "user_id", "emoji", "created_at"]

/-- The keys of the insert payload `addReaction` builds (the
`InsertMessageReaction` object): `messageId`/`userId` are camelCase, unlike
the table's `message_id`/`user_id` columns. -/
def reactionInsertKeys : List String := ["messageId", "userId", "emoji"]

/-- The store error surfaced when the reaction insert payload names the
camelCase messageId key, which is not a column; the write is rejected and no
row is inserted. -/
def reactionInsertColumnError : String :=
  "Could not find the messageId column of message_reactions in the schema cache"

/-- `ConversationService.addReaction`: fetch the message, membership check,
duplicate check, insert the reaction row (rejected by the store: camelCase
payload keys against snake_case columns), and only on insert success
recompute the aggregate synchronously — so the success path is unreachable. -/
def addReaction (db : DB) (messageId userId : Nat) (emoji : String) :
    Option String × DB :=
  match findMessage db messageId with
  | none => (some "Message not found", db)
  | some msg =>
    match getConversationParticipants db msg.conversationId userId with
    | Except.error e => (some e, db)
    | Except.ok ps =>
      if userId ∈ ps then
        if (⟨messageId, userId, emoji⟩ : Reaction) ∈ db.reactions then
          (some "Reaction already exists", db)
        else
          if reactionInsertKeys.all (fun k => messageReactionsColumns.contains k) then
            let db1 : DB :=
              { db with reactions := db.reactions ++ [⟨messageId, userId, emoji⟩] }
            (none, updateReactionCounts db1 messageId)
          else (some reactionInsertColumnError, db)
      else (some "Not authorized to react to this message", db)

/-- `ConversationService.removeReaction`: fetch the message, membership check,
delete matching reaction rows (a no-op when none match), then recompute the
aggregate synchronously. -/
def removeReaction (db : DB) (messageId userId : Nat) (emoji : String) :
    Option String × DB :=
  match findMessage db messageId with
  | none => (some "Message not found", db)
  | some msg =>
    match getConversationParticipants db msg.conversationId userId with
    | Except.error e => (some e, db)
    | Except.ok ps =>
      if userId ∈ ps then
        let db1 : DB :=
          { db with reactions :=
              db.reactions.filter (fun r => !(r == ⟨messageId, userId, emoji⟩)) }
        (none, updateReactionCounts db1 messageId)
      else (some "Not authorized to remove reaction from this message", db)

/-- Look up an emoji's entry in a counts object (JS property access). -/
def lookupEmoji (l : Counts) (e : String) : Option EmojiCount :=
  (l.find? (fun p => p.1 == e)).map (fun p => p.2)

/-- Look up the aggregate row of a message in `message_reaction_counts`. -/
def lookupAgg (l : List (Nat × Counts)) (m : Nat) : Option Counts :=
  (l.find? (fun p => p.1 == m)).map (fun p => p.2)

/-- The stored aggregate entry for message `m` and emoji `e` (absent when the
message has no aggregate row or the row has no entry for `e`). -/
def aggLookup (db : DB) (m : Nat) (e : String) : Option EmojiCount :=
  match lookupAgg db.reactionCounts m with
  | none => none
  | some cs => lookupEmoji cs e

/-!
RealtimeService (client/src/lib/services/search.ts).  Channels are opaque
handles; the model allocates them from a counter.  `channels` is the service's
`Map<string, RealtimeChannel>` as an insertion-ordered association list;
`removed` records every handle passed to `supabase.removeChannel` (torn down).
-/

/-- The `RealtimeService` instance state. -/
structure RTState where
  channels : List (String × Nat)
  removed : List Nat
  nextChan : Nat
  userId : Option Nat
  deriving Repr, DecidableEq

/-- The freshly constructed service: empty channel table, no user. -/
def RTState.start : RTState := { channels := [], removed := [], nextChan := 0, userId := none }

/-- JS truthiness of `this.userId` (`null` and `0` are both falsy). -/
def truthyUser : Option Nat → Bool
  | none => false
  | some u => u != 0

/-- `RealtimeService.initialize(userId)`: record the user id. -/
def setCurrentUser (s : RTState) (u : Nat) : RTState := { s with userId := some u }

/-- `Map.set(name, cid)`: replace the entry under an existing key in place,
else append. -/
def mapSet : List (String × Nat) → String → Nat → List (String × Nat)
  | [], name, cid => [(name, cid)]
  | (k, v) :: rest, name, cid =>
    if k = name then (name, cid) :: rest else (k, v) :: mapSet rest name cid

/-- `Map.get(name)` on the channel table. -/
def channelLookup (l : List (String × Nat)) (name : String) : Option Nat :=
  (l.find? (fun p => p.1 == name)).map (fun p => p.2)

/-- `RealtimeService.unsubscribe(channelName)`: if the table holds the key,
pass its channel to `supabase.removeChannel` and delete the entry. -/
def unsubscribeChannel (s : RTState) (name : String) : RTState :=
  match (s.channels.find? (fun p => p.1 == name)) with
  | some p =>
    { s with channels := s.channels.filter (fun q => q.1 != name),
             removed := s.removed ++ [p.2] }
  | none => s

/-- The shared body of every `subscribeToX` method: tear down any prior
subscription under the same channel name, build a fresh channel, store it
under the name, return it. -/
def subscribeTopic (s : RTState) (name : String) : Nat × RTState :=
  let s1 := unsubscribeChannel s name
  let cid := s1.nextChan
  (cid, { s1 with channels := mapSet s1.channels name cid, nextChan := cid + 1 })

/-- `RealtimeService.subscribeToMessages(conversationId, …)`. -/
def subscribeToMessages (s : RTState) (conversationId : Nat) : Nat × RTState :=
  subscribeTopic s ("messages:" ++ toString conversationId)

/-- `RealtimeService.subscribeToTyping(conversationId, …)`. -/
def subscribeToTyping (s : RTState) (conversationId : Nat) : Nat × RTState :=
  subscribeTopic s ("typing:" ++ toString conversationId)

/-- `RealtimeService.subscribeToUserStatus(…)`. -/
def subscribeToUserStatus (s : RTState) : Nat × RTState :=
  subscribeTopic s "user-status"

/-- `RealtimeService.subscribeToMessageReactions(…)`. -/
def subscribeToMessageReactions (s : RTState) : Nat × RTState :=
  subscribeTopic s "message-reactions"

/-- `RealtimeService.subscribeToConversationParticipants(conversationId, …)`. -/
def subscribeToConversationParticipants (s : RTState) (conversationId : Nat) : Nat × RTState :=
  subscribeTopic s ("participants:" ++ toString conversationId)

/-- `RealtimeService.subscribeToNotifications(…)`: bails out (returning null,
state untouched) when `this.userId` is falsy. -/
def subscribeToNotifications (s : RTState) : Option Nat × RTState :=
  if truthyUser s.userId then
    let r := subscribeTopic s "notifications"
    (some r.1, r.2)
  else (none, s)

/-- `RealtimeService.unsubscribeAll()`: remove every channel, clear the table. -/
def unsubscribeAll (s : RTState) : RTState :=
  { s with channels := [], removed := s.removed ++ s.channels.map (fun p => p.2) }

/-- `RealtimeService.cleanup()`: unsubscribe everything, forget the user. -/
def cleanup (s : RTState) : RTState :=
  { unsubscribeAll s with userId := none }

/-- The payload of `channel.track({userId, username, typing, lastTyped})`
(the timestamp is not modelled). -/
structure TrackPayload where
  userId : Nat
  username : String
  typing : Bool
  deriving Repr, DecidableEq

/-- `RealtimeService.sendTyping(conversationId, username, isTyping)`: a silent
no-op unless `this.userId` is truthy and the typing channel for the
conversation is in the table; otherwise publishes the presence record on that
channel.  Returns the next state and the published (channel, payload), if any. -/
def sendTyping (s : RTState) (conversationId : Nat) (username : String)
    (isTyping : Bool) : RTState × Option (Nat × TrackPayload) :=
  match s.userId with
  | none => (s, none)
  | some uid =>
    if uid == 0 then (s, none)
    else
      let channelName := "typing:" ++ toString conversationId
      match channelLookup s.channels channelName with
      | none => (s, none)
      | some ch =>
        (s, some (ch, { userId := uid, username := username, typing := isTyping }))

/-- The operations a client can issue against the service (used to quantify
over call sequences). -/
inductive RTOp where
  | init (u : Nat)
  | subMessages (c : Nat)
  | subTyping (c : Nat)
  | subUserStatus
  | subReactions
  | subParticipants (c : Nat)
  | subNotifications
  | typing (c : Nat) (username : String) (isTyping : Bool)
  | unsub (name : String)
  | unsubAll
  | doCleanup
  deriving Repr, DecidableEq

/-- Apply one service call to the state. -/
def applyRTOp (s : RTState) : RTOp → RTState
  | RTOp.init u => setCurrentUser s u
  | RTOp.subMessages c => (subscribeToMessages s c).2
  | RTOp.subTyping c => (subscribeToTyping s c).2
  | RTOp.subUserStatus => (subscribeToUserStatus s).2
  | RTOp.subReactions => (subscribeToMessageReactions s).2
  | RTOp.subParticipants c => (subscribeToConversationParticipants s c).2
  | RTOp.subNotifications => (subscribeToNotifications s).2
  | RTOp.typing c username isTyping => (sendTyping s c username isTyping).1
  | RTOp.unsub name => unsubscribeChannel s name
  | RTOp.unsubAll => unsubscribeAll s
  | RTOp.doCleanup => cleanup s

/-- The state after a sequence of service calls on a fresh service. -/
def runRT (ops : List RTOp) : RTState :=
  ops.foldl applyRTOp RTState.start

/-- One record of `channel.presenceState()[key]` as read by the typing sync
handler (`{userId, username, typing, …}`). -/
structure PresenceRec where
  userId : Nat
  username : String
  typing : Bool
  deriving Repr, DecidableEq

/-- The body of the presence `sync` handler installed by `subscribeToTyping`:
walk the presence-state keys, take the first record of each, and collect
`{userId, username}` of those marked typing whose userId differs from
`this.userId` (comparison against a null `this.userId` is always a
mismatch in JS). -/
def computeTypingUsers (localUser : Option Nat) :
    List (String × List PresenceRec) → List (Nat × String)
  | [] => []
  | (_, ps) :: rest =>
    match ps with
    | [] => computeTypingUsers localUser rest
    | p :: _ =>
      if p.typing && !(localUser == some p.userId) then
        (p.userId, p.username) :: computeTypingUsers localUser rest
      else computeTypingUsers localUser rest

/-! Further definitions used by the theorems: the reference aggregate
semantics, reaction call sequences, and concrete sample stores. -/

/-- Extend an optional aggregate entry by a batch of same-emoji reaction rows
(the reference semantics the `forEach` fold is proved against): an absent
entry stays absent on no rows, otherwise counts the rows and collects their
user ids in row order. -/
def extendCount : Option EmojiCount → List Reaction → Option EmojiCount
  | none, [] => none
  | none, l => some { count := l.length, userIds := l.map (fun r => r.userId) }
  | some c, l => some { count := c.count + l.length,
                        userIds := c.userIds ++ l.map (fun r => r.userId) }

/-- One reaction call (add or remove) by a user with an emoji, aimed at a
fixed message. -/
inductive ROp where
  | add (u : Nat) (e : String)
  | remove (u : Nat) (e : String)
  deriving Repr, DecidableEq

/-- Run one reaction call against the store. -/
def applyROpE (db : DB) (m : Nat) : ROp → Option String × DB
  | ROp.add u e => addReaction db m u e
  | ROp.remove u e => removeReaction db m u e

/-- The store after a sequence of reaction calls on message `m`. -/
def applyROps (db : DB) (m : Nat) (ops : List ROp) : DB :=
  ops.foldl (fun d op => (applyROpE d m op).2) db

/-- The message row used in the sample store. -/
def sampleMsg : Msg :=
  { id := 1, conversationId := 1, senderId := 1, content := "hi",
    mediaUrl := none, mediaType := none, isLiked := false, isSaved := false,
    transcription := none, isTranscribed := false }

/-- A quiescent store: conversation 1 with participants 1 and 2, one message,
one reaction by user 2, and an up-to-date aggregate row. -/
def sampleDB : DB :=
  { conversations := [1]
  , participants := [(1, 1), (1, 2)]
  , messages := [sampleMsg]
  , reactions := [⟨1, 2, "+1"⟩]
  , reactionCounts := [(1, buildCounts [⟨1, 2, "+1"⟩])]
  , nextConversationId := 2
  , nextMessageId := 2 }

/-- A patch setting only the liked flag. -/
def samplePatch : UpdateMessagePatch :=
  { isLiked := some true, isSaved := none, transcription := none, isTranscribed := none }

/-- A service state with one live messages channel (handle 5). -/
def sampleRT : RTState :=
  { channels := [("messages:1", 5)], removed := [], nextChan := 6, userId := some 1 }

/-- A presence state: user 1 ("alice") typing, user 2 ("bob") not typing. -/
def sampleSync : List (String × List PresenceRec) :=
  [("1", [{ userId := 1, username := "alice", typing := true }]),
   ("2", [{ userId := 2, username := "bob", typing := false }])]

/-! Basic lemmas about the store model. -/

theorem mem_participantsOf {db : DB} {c u : Nat} :
    u ∈ participantsOf db c ↔ (c, u) ∈ db.participants := by
  simp only [participantsOf, List.mem_map, List.mem_filter, beq_iff_eq]
  constructor
  · rintro ⟨⟨a, b⟩, ⟨hmem, hc⟩, hu⟩
    cases hc; cases hu; exact hmem
  · intro h
    exact ⟨(c, u), ⟨h, rfl⟩, rfl⟩

theorem getConversationParticipants_of_mem {db : DB} {c u : Nat}
    (h : (c, u) ∈ db.participants) :
    getConversationParticipants db c u = Except.ok (participantsOf db c) := by
  unfold getConversationParticipants
  rw [if_pos (mem_participantsOf.mpr h)]

theorem getConversationParticipants_of_not_mem {db : DB} {c u : Nat}
    (h : (c, u) ∉ db.participants) :
    getConversationParticipants db c u =
      Except.error "Not authorized to view participants in this conversation" := by
  unfold getConversationParticipants
  rw [if_neg (fun hm => h (mem_participantsOf.mp hm))]

/-- Claim C1: adding a reaction whose exact (messageId, userId, emoji) triple
already exists fails with the DuplicateReaction error ("Reaction already
exists") and returns before any write: the store — reaction rows and reaction
aggregate included — after the failing call equals the store before it. -/
theorem addReaction_duplicate_fails (db : DB) (m u : Nat) (e : String) (msg : Msg)
    (hmsg : findMessage db m = some msg)
    (hmem : (msg.conversationId, u) ∈ db.participants)
    (hdup : (⟨m, u, e⟩ : Reaction) ∈ db.reactions) :
    addReaction db m u e = (some "Reaction already exists", db) := by
  have hm : u ∈ participantsOf db msg.conversationId := mem_participantsOf.mpr hmem
  simp only [addReaction, hmsg, getConversationParticipants_of_mem hmem, hm,
    if_true, hdup]

/-- Witness for C1 at the sample store. -/
theorem addReaction_duplicate_fails_witness :
    addReaction sampleDB 1 2 "+1" = (some "Reaction already exists", sampleDB) :=
  addReaction_duplicate_fails sampleDB 1 2 "+1" sampleMsg (by decide) (by decide) (by decide)

/-- Claim C2: when the participant bulk insert fails after the conversation
row was created, createConversation deletes the just-created conversation and
fails with the CreateFailed error, leaving the conversation and participant
relations exactly as before the call.  The freshness hypothesis states that
the id the store allocates is not already a row. -/
theorem createConversation_compensates (db : DB) (pids : List Nat)
    (hfresh : db.nextConversationId ∉ db.conversations) :
    (createConversation db pids true).1 =
        Except.error "Failed to add participants to conversation" ∧
    ((createConversation db pids true).2).conversations = db.conversations ∧
    ((createConversation db pids true).2).participants = db.participants := by
  refine ⟨rfl, ?_, rfl⟩
  show (db.conversations ++ [db.nextConversationId]).filter
      (fun c => c != db.nextConversationId) = db.conversations
  rw [List.filter_append]
  have h1 : db.conversations.filter (fun c => c != db.nextConversationId) =
      db.conversations :=
    List.filter_eq_self.mpr (fun a ha => bne_iff_ne.mpr (fun hEq => hfresh (hEq ▸ ha)))
  have h2 : ([db.nextConversationId].filter (fun c => c != db.nextConversationId)) =
      ([] : List Nat) := by simp
  rw [h1, h2, List.append_nil]

/-- Witness for C2 at the sample store. -/
theorem createConversation_compensates_witness :
    (createConversation sampleDB [1, 2] true).1 =
        Except.error "Failed to add participants to conversation" ∧
    ((createConversation sampleDB [1, 2] true).2).conversations = sampleDB.conversations ∧
    ((createConversation sampleDB [1, 2] true).2).participants = sampleDB.participants :=
  createConversation_compensates sampleDB [1, 2] (by decide)

/-- Claim C4: sendMessage by a user with no participant row for the
conversation fails with a NotAuthorized-class error and leaves the store —
the message relation included — unchanged. -/
theorem sendMessage_nonparticipant_fails (db : DB) (c u : Nat) (content : String)
    (mu mt : Option String) (h : (c, u) ∉ db.participants) :
    ∃ e, sendMessage db c u content mu mt = (Except.error e, db) ∧
      e ∈ notAuthorizedMessages := by
  refine ⟨"Not authorized to view participants in this conversation", ?_, by
    simp [notAuthorizedMessages]⟩
  unfold sendMessage
  rw [getConversationParticipants_of_not_mem h]

/-- Witness for C4: user 3 is not a participant of conversation 1. -/
theorem sendMessage_nonparticipant_fails_witness :
    ∃ e, sendMessage sampleDB 1 3 "hey" none none = (Except.error e, sampleDB) ∧
      e ∈ notAuthorizedMessages :=
  sendMessage_nonparticipant_fails sampleDB 1 3 "hey" none none (by decide)

/-- Claim C5 counterexample: user 1 is a participant of conversation 1, yet
sendMessage with empty content does not fail with a ValidationError raised
before any store access: the membership check (a store read) runs first, and
the call then fails with the store's insert-column error — the payload keys
are camelCase against the snake_case `messages` columns — never a validation
failure; no code path in sendMessage validates content. -/
theorem sendMessage_empty_content_cex :
    sendMessage sampleDB 1 1 "" none none =
      (Except.error messageInsertColumnError, sampleDB) := by rfl

/-- Claim C5 amended: sendMessage performs no content validation; for a
participant the membership check (a store read) always runs first, and the
insert is then rejected by the store because the payload keys do not match
the table's columns, so the call fails with the store's column error — not a
ValidationError — and no Message row is ever created, for empty and
non-empty content alike. -/
theorem sendMessage_insert_rejected (db : DB) (c u : Nat) (content : String)
    (mu mt : Option String) (hmem : (c, u) ∈ db.participants) :
    sendMessage db c u content mu mt =
      (Except.error messageInsertColumnError, db) := by
  have hm : u ∈ participantsOf db c := mem_participantsOf.mpr hmem
  have hguard : (messageInsertKeys.all fun k => messagesColumns.contains k) = false := by
    rfl
  simp only [sendMessage, getConversationParticipants_of_mem hmem, hm, if_true,
    hguard, Bool.false_eq_true, if_false]

/-- Witness for the amended C5: participant 2 sending empty content. -/
theorem sendMessage_insert_rejected_witness :
    sendMessage sampleDB 1 2 "" none none =
      (Except.error messageInsertColumnError, sampleDB) :=
  sendMessage_insert_rejected sampleDB 1 2 "" none none (by decide)

/-! The aggregate fold (`updateReactionCounts`) against its reference
semantics. -/

theorem lookupEmoji_nil (e : String) : lookupEmoji [] e = none := rfl

theorem lookupEmoji_cons (k : String) (c : EmojiCount) (rest : Counts) (e : String) :
    lookupEmoji ((k, c) :: rest) e = if k = e then some c else lookupEmoji rest e := by
  by_cases h : k = e <;> simp [lookupEmoji, List.find?_cons, h]

theorem extendCount_nil (x : Option EmojiCount) : extendCount x [] = x := by
  cases x <;> simp [extendCount]

theorem lookupEmoji_addRow (acc : Counts) (r : Reaction) (e : String) :
    lookupEmoji (addRow acc r) e =
      if r.emoji = e then
        match lookupEmoji acc e with
        | none => some { count := 1, userIds := [r.userId] }
        | some c => some { count := c.count + 1, userIds := c.userIds ++ [r.userId] }
      else lookupEmoji acc e := by
  induction acc with
  | nil =>
    by_cases h : r.emoji = e <;>
      simp [addRow, lookupEmoji_nil, lookupEmoji_cons, h]
  | cons kv rest ih =>
    obtain ⟨k, c⟩ := kv
    by_cases hk : k = r.emoji
    · subst hk
      by_cases he : r.emoji = e <;>
        simp [addRow, lookupEmoji_cons, he, if_pos rfl]
    · by_cases he : k = e
      · subst he
        have hre : ¬ r.emoji = k := fun hh => hk hh.symm
        simp [addRow, hk, lookupEmoji_cons, hre]
      · simp [addRow, hk, lookupEmoji_cons, he, ih]

theorem lookupEmoji_foldl_addRow (rows : List Reaction) (acc : Counts) (e : String) :
    lookupEmoji (rows.foldl addRow acc) e =
      extendCount (lookupEmoji acc e) (rows.filter (fun r => r.emoji == e)) := by
  induction rows generalizing acc with
  | nil => simp [extendCount_nil]
  | cons r rest ih =>
    rw [List.foldl_cons, ih]
    by_cases h : r.emoji = e
    · have hfe : (r.emoji == e) = true := beq_iff_eq.mpr h
      rw [lookupEmoji_addRow, if_pos h, List.filter_cons]
      simp only [hfe, if_true]
      cases hacc : lookupEmoji acc e with
      | none =>
        cases hrest : rest.filter (fun r => r.emoji == e) with
        | nil => simp [extendCount]
        | cons a l => simp [extendCount, Nat.add_comm]
      | some c =>
        cases hrest : rest.filter (fun r => r.emoji == e) with
        | nil => simp [extendCount]
        | cons a l => simp [extendCount, Nat.add_assoc, Nat.add_comm 1]
    · have hfe : (r.emoji == e) = false := by simp [h]
      rw [lookupEmoji_addRow, if_neg h, List.filter_cons]
      simp only [hfe, Bool.false_eq_true, if_false]

theorem lookupEmoji_buildCounts (rows : List Reaction) (e : String) :
    lookupEmoji (buildCounts rows) e =
      extendCount none (rows.filter (fun r => r.emoji == e)) := by
  simpa [lookupEmoji_nil] using lookupEmoji_foldl_addRow rows [] e

theorem lookupAgg_cons (k : Nat) (v : Counts) (rest : List (Nat × Counts)) (m : Nat) :
    lookupAgg ((k, v) :: rest) m = if k = m then some v else lookupAgg rest m := by
  by_cases h : k = m <;> simp [lookupAgg, List.find?_cons, h]

theorem lookupAgg_upsertCounts (l : List (Nat × Counts)) (m : Nat) (c : Counts) :
    lookupAgg (upsertCounts l m c) m = some c := by
  induction l with
  | nil => simp [upsertCounts, lookupAgg_cons]
  | cons kv rest ih =>
    obtain ⟨k, v⟩ := kv
    by_cases h : k = m <;> simp [upsertCounts, h, lookupAgg_cons, ih]

theorem upsertCounts_self (l : List (Nat × Counts)) (m : Nat) (c : Counts)
    (h : lookupAgg l m = some c) : upsertCounts l m c = l := by
  induction l with
  | nil => simp [lookupAgg] at h
  | cons kv rest ih =>
    obtain ⟨k, v⟩ := kv
    rw [lookupAgg_cons] at h
    by_cases hk : k = m
    · rw [if_pos hk] at h
      cases h
      simp [upsertCounts, hk]
    · rw [if_neg hk] at h
      simp [upsertCounts, hk, ih h]

theorem updateReactionCounts_agg (db : DB) (m : Nat) :
    lookupAgg (updateReactionCounts db m).reactionCounts m =
      some (buildCounts (reactionsFor (updateReactionCounts db m) m)) :=
  lookupAgg_upsertCounts db.reactionCounts m (buildCounts (reactionsFor db m))

theorem reactions_nodup_step (db : DB) (m : Nat) (op : ROp)
    (h : db.reactions.Nodup) : ((applyROpE db m op).2).reactions.Nodup := by
  cases op with
  | add u e =>
    cases hf : findMessage db m with
    | none => simpa [applyROpE, addReaction, hf] using h
    | some msg =>
      cases hg : getConversationParticipants db msg.conversationId u with
      | error s => simpa [applyROpE, addReaction, hf, hg] using h
      | ok ps =>
        by_cases hu : u ∈ ps
        · by_cases hd : (⟨m, u, e⟩ : Reaction) ∈ db.reactions
          · simpa [applyROpE, addReaction, hf, hg, hu, hd] using h
          · have hguard : ¬ ∀ x ∈ reactionInsertKeys, x ∈ messageReactionsColumns := by
              decide
            simpa [applyROpE, addReaction, hf, hg, hu, hd, hguard] using h
        · simpa [applyROpE, addReaction, hf, hg, hu] using h
  | remove u e =>
    cases hf : findMessage db m with
    | none => simpa [applyROpE, removeReaction, hf] using h
    | some msg =>
      cases hg : getConversationParticipants db msg.conversationId u with
      | error s => simpa [applyROpE, removeReaction, hf, hg] using h
      | ok ps =>
        by_cases hu : u ∈ ps
        · simp only [applyROpE, removeReaction, hf, hg, hu, if_true]
          exact h.filter _
        · simpa [applyROpE, removeReaction, hf, hg, hu] using h

theorem reactions_nodup_applyROps (db : DB) (m : Nat) (ops : List ROp)
    (h : db.reactions.Nodup) : (applyROps db m ops).reactions.Nodup := by
  induction ops generalizing db with
  | nil => exact h
  | cons op rest ih =>
    rw [applyROps, List.foldl_cons]
    exact ih _ (reactions_nodup_step db m op h)

theorem filter_userIds_nodup (rows : List Reaction) (m : Nat) (e : String)
    (h : rows.Nodup) :
    ((rows.filter (fun r => r.messageId == m && r.emoji == e)).map
      (fun r => r.userId)).Nodup := by
  refine List.Nodup.map_on ?_ (h.filter _)
  intro x hx y hy hxy
  rw [List.mem_filter] at hx hy
  obtain ⟨-, hx2⟩ := hx
  obtain ⟨-, hy2⟩ := hy
  simp only [Bool.and_eq_true, beq_iff_eq] at hx2 hy2
  cases x; cases y
  simp_all

theorem filter_filter_reactions (rows : List Reaction) (m : Nat) (e : String) :
    (rows.filter (fun r => r.messageId == m)).filter (fun r => r.emoji == e) =
      rows.filter (fun r => r.messageId == m && r.emoji == e) := by
  induction rows with
  | nil => rfl
  | cons r rest ih =>
    by_cases h1 : r.messageId = m
    · by_cases h2 : r.emoji = e <;> simp [List.filter_cons, h1, h2, ih]
    · simp [List.filter_cons, h1, ih]

theorem applyROpE_success_agg (db : DB) (m : Nat) (op : ROp)
    (h : (applyROpE db m op).1 = none) :
    lookupAgg ((applyROpE db m op).2).reactionCounts m =
      some (buildCounts (reactionsFor ((applyROpE db m op).2) m)) := by
  cases op with
  | add u e =>
    cases hf : findMessage db m with
    | none => simp [applyROpE, addReaction, hf] at h
    | some msg =>
      cases hg : getConversationParticipants db msg.conversationId u with
      | error s => simp [applyROpE, addReaction, hf, hg] at h
      | ok ps =>
        by_cases hu : u ∈ ps
        · by_cases hd : (⟨m, u, e⟩ : Reaction) ∈ db.reactions
          · simp [applyROpE, addReaction, hf, hg, hu, hd] at h
          · have hguard : ¬ ∀ x ∈ reactionInsertKeys, x ∈ messageReactionsColumns := by
              decide
            simp [applyROpE, addReaction, hf, hg, hu, hd, hguard] at h
        · simp [applyROpE, addReaction, hf, hg, hu] at h
  | remove u e =>
    cases hf : findMessage db m with
    | none => simp [applyROpE, removeReaction, hf] at h
    | some msg =>
      cases hg : getConversationParticipants db msg.conversationId u with
      | error s => simp [applyROpE, removeReaction, hf, hg] at h
      | ok ps =>
        by_cases hu : u ∈ ps
        · simp only [applyROpE, removeReaction, hf, hg, hu, if_true]
          exact updateReactionCounts_agg _ m
        · simp [applyROpE, removeReaction, hf, hg, hu] at h

/-- Claim C3: after any sequence of reaction calls on one message whose final
call succeeds (every successful call ends in the synchronous aggregate
recompute), the stored aggregate maps each emoji with remaining reaction rows
for the message to exactly the row count and the reacting users in row order,
and has no entry for an emoji with no remaining rows; when the reaction
relation is duplicate-free, the collected user ids are pairwise distinct (one
row per distinct reacting user).  In the source only removals ever succeed —
the add insert is rejected by the store (camelCase payload keys), so the
add cases of the success hypothesis hold vacuously. -/
theorem reaction_aggregate_correct (db : DB) (m : Nat) (ops : List ROp) (op : ROp)
    (hok : (applyROpE (applyROps db m ops) m op).1 = none) (e : String) :
    (aggLookup ((applyROpE (applyROps db m ops) m op).2) m e =
      if (((applyROpE (applyROps db m ops) m op).2).reactions.filter
            (fun r => r.messageId == m && r.emoji == e)) = [] then none
      else some
        { count := (((applyROpE (applyROps db m ops) m op).2).reactions.filter
            (fun r => r.messageId == m && r.emoji == e)).length
        , userIds := (((applyROpE (applyROps db m ops) m op).2).reactions.filter
            (fun r => r.messageId == m && r.emoji == e)).map (fun r => r.userId) }) ∧
    (db.reactions.Nodup →
      ((((applyROpE (applyROps db m ops) m op).2).reactions.filter
          (fun r => r.messageId == m && r.emoji == e)).map (fun r => r.userId)).Nodup) := by
  constructor
  · have hagg := applyROpE_success_agg (applyROps db m ops) m op hok
    unfold aggLookup
    rw [hagg]
    show lookupEmoji (buildCounts (reactionsFor ((applyROpE (applyROps db m ops) m op).2) m)) e = _
    rw [lookupEmoji_buildCounts]
    show extendCount none
        ((((applyROpE (applyROps db m ops) m op).2).reactions.filter
          (fun r => r.messageId == m)).filter (fun r => r.emoji == e)) = _
    rw [filter_filter_reactions]
    cases (((applyROpE (applyROps db m ops) m op).2).reactions.filter
        (fun r => r.messageId == m && r.emoji == e)) with
    | nil => simp [extendCount]
    | cons a l => simp [extendCount]
  · intro hnd
    exact filter_userIds_nodup _ m e
      (reactions_nodup_step _ m op (reactions_nodup_applyROps db m ops hnd))

/-- Witness for C3: user 2 removes their reaction — the one kind of reaction
call that can succeed in the source, since the add insert is always rejected
— and after the synchronous recompute the aggregate has no entry for the
emoji, matching the empty remaining rows. -/
theorem reaction_aggregate_correct_witness :
    aggLookup ((applyROpE (applyROps sampleDB 1 []) 1 (ROp.remove 2 "+1")).2) 1 "+1" =
      none := by
  have h := (reaction_aggregate_correct sampleDB 1 [] (ROp.remove 2 "+1")
    (by rfl) "+1").1
  rw [h]
  rfl

/-- Claim C6: removing a reaction that does not exist, by a participant, on an
existing message, succeeds as a no-op: on a quiescent store (whose aggregate
row for the message is present and up to date) the call returns success and
the entire store — reaction rows and aggregate included — is unchanged. -/
theorem removeReaction_noop (db : DB) (m u : Nat) (e : String) (msg : Msg)
    (hmsg : findMessage db m = some msg)
    (hmem : (msg.conversationId, u) ∈ db.participants)
    (hnone : (⟨m, u, e⟩ : Reaction) ∉ db.reactions)
    (hagg : lookupAgg db.reactionCounts m = some (buildCounts (reactionsFor db m))) :
    removeReaction db m u e = (none, db) := by
  have hm : u ∈ participantsOf db msg.conversationId := mem_participantsOf.mpr hmem
  have hfilter : db.reactions.filter (fun r => !(r == (⟨m, u, e⟩ : Reaction))) =
      db.reactions :=
    List.filter_eq_self.mpr (fun a ha => by
      simp only [Bool.not_eq_true', beq_eq_false_iff_ne, ne_eq]
      intro hEq
      exact hnone (hEq ▸ ha))
  simp only [removeReaction, hmsg, getConversationParticipants_of_mem hmem, hm,
    if_true, hfilter]
  show (none, updateReactionCounts db m) = (none, db)
  unfold updateReactionCounts
  rw [upsertCounts_self _ _ _ hagg]

/-- Witness for C6: removing an absent reaction from the quiescent sample
store. -/
theorem removeReaction_noop_witness :
    removeReaction sampleDB 1 1 "+1" = (none, sampleDB) :=
  removeReaction_noop sampleDB 1 1 "+1" sampleMsg (by rfl) (by decide) (by decide) (by rfl)

/-! updateMessage (Claim C7). -/

/-- Claim C7 (code bug): the NotFound case behaves as claimed, but for every
message that does exist, updateMessage reads `message.conversationId` off the
snake_case row — undefined — so the membership re-check queries
`conversation_id=eq.undefined` and errors at the store: the call fails with
the store's parse error, the patch is never applied, the NotAuthorized
re-check is unreachable, and the store is unchanged. -/
theorem updateMessage_conversationId_undefined (db : DB) (mid u : Nat)
    (p : UpdateMessagePatch) (msg : Msg)
    (hmsg : findMessage db mid = some msg) :
    updateMessage db mid u p = (Except.error undefinedFilterError, db) ∧
    (findMessage db mid = none →
      updateMessage db mid u p = (Except.error "Message not found", db)) := by
  constructor
  · simp only [updateMessage, hmsg, getConversationParticipantsU,
      rowConversationIdCamel]
  · intro h
    rw [h] at hmsg
    cases hmsg

/-- Witness for C7: on the sample store message 1 exists in conversation 1
with acting participant 1, yet updateMessage fails with the
undefined-filter store error and changes nothing. -/
theorem updateMessage_conversationId_undefined_witness :
    updateMessage sampleDB 1 1 samplePatch =
      (Except.error undefinedFilterError, sampleDB) :=
  (updateMessage_conversationId_undefined sampleDB 1 1 samplePatch sampleMsg
    (by rfl)).1

/-! The subscription manager's channel table (Claim C8). -/

theorem channelLookup_cons (k : String) (v : Nat) (rest : List (String × Nat))
    (name : String) :
    channelLookup ((k, v) :: rest) name =
      if k = name then some v else channelLookup rest name := by
  by_cases h : k = name <;> simp [channelLookup, List.find?_cons, h]

theorem channelLookup_mapSet (l : List (String × Nat)) (k : String) (v : Nat) :
    channelLookup (mapSet l k v) k = some v := by
  induction l with
  | nil => simp [mapSet, channelLookup_cons]
  | cons a rest ih =>
    obtain ⟨k1, v1⟩ := a
    by_cases h : k1 = k <;> simp [mapSet, h, channelLookup_cons, ih]

theorem mapSet_of_not_mem (l : List (String × Nat)) (k : String) (v : Nat)
    (h : k ∉ l.map Prod.fst) : mapSet l k v = l ++ [(k, v)] := by
  induction l with
  | nil => rfl
  | cons a rest ih =>
    obtain ⟨k1, v1⟩ := a
    simp only [List.map_cons, List.mem_cons] at h
    push_neg at h
    rw [mapSet, if_neg (fun hk => h.1 hk.symm)]
    rw [ih h.2]
    rfl

theorem unsubscribeChannel_not_mem (s : RTState) (name : String) :
    name ∉ (unsubscribeChannel s name).channels.map Prod.fst := by
  cases hf : s.channels.find? (fun p => p.1 == name) with
  | none =>
    simp only [unsubscribeChannel, hf]
    intro hmem
    obtain ⟨q, hq, hq1⟩ := List.mem_map.mp hmem
    have := List.find?_eq_none.mp hf q hq
    simp [hq1] at this
  | some p =>
    simp only [unsubscribeChannel, hf]
    intro hmem
    obtain ⟨q, hq, hq1⟩ := List.mem_map.mp hmem
    rw [List.mem_filter] at hq
    have := hq.2
    simp [hq1] at this

theorem unsubscribeChannel_lookup (s : RTState) (name : String) :
    channelLookup (unsubscribeChannel s name).channels name = none := by
  have h := unsubscribeChannel_not_mem s name
  unfold channelLookup
  rw [List.find?_eq_none.mpr]
  · rfl
  · intro q hq
    simp only [beq_iff_eq]
    intro hq1
    exact h (List.mem_map.mpr ⟨q, hq, hq1⟩)

theorem unsubscribeChannel_keys_nodup (s : RTState) (name : String)
    (h : (s.channels.map Prod.fst).Nodup) :
    ((unsubscribeChannel s name).channels.map Prod.fst).Nodup := by
  cases hf : s.channels.find? (fun p => p.1 == name) with
  | none => simpa only [unsubscribeChannel, hf] using h
  | some p =>
    simp only [unsubscribeChannel, hf]
    exact h.sublist ((List.filter_sublist _).map Prod.fst)

theorem subscribeTopic_keys_nodup (s : RTState) (name : String)
    (h : (s.channels.map Prod.fst).Nodup) :
    (((subscribeTopic s name).2).channels.map Prod.fst).Nodup := by
  have h1 := unsubscribeChannel_keys_nodup s name h
  have h2 := unsubscribeChannel_not_mem s name
  show ((mapSet (unsubscribeChannel s name).channels name
      (unsubscribeChannel s name).nextChan).map Prod.fst).Nodup
  rw [mapSet_of_not_mem _ _ _ h2, List.map_append]
  exact h1.append (List.nodup_singleton _)
    (fun x hx hmem => by
      simp only [List.map_cons, List.map_nil, List.mem_singleton] at hmem
      exact h2 (hmem ▸ hx))

theorem applyRTOp_keys_nodup (s : RTState) (op : RTOp)
    (h : (s.channels.map Prod.fst).Nodup) :
    ((applyRTOp s op).channels.map Prod.fst).Nodup := by
  cases op with
  | init u => exact h
  | subMessages c => exact subscribeTopic_keys_nodup s _ h
  | subTyping c => exact subscribeTopic_keys_nodup s _ h
  | subUserStatus => exact subscribeTopic_keys_nodup s _ h
  | subReactions => exact subscribeTopic_keys_nodup s _ h
  | subParticipants c => exact subscribeTopic_keys_nodup s _ h
  | subNotifications =>
    show (((subscribeToNotifications s).2).channels.map Prod.fst).Nodup
    unfold subscribeToNotifications
    by_cases ht : truthyUser s.userId
    · simp only [ht, if_true]
      exact subscribeTopic_keys_nodup s _ h
    · simp only [ht]
      simpa using h
  | typing c username isTyping =>
    show (((sendTyping s c username isTyping).1).channels.map Prod.fst).Nodup
    unfold sendTyping
    cases s.userId with
    | none => exact h
    | some uid =>
      by_cases h0 : (uid == 0) = true
      · simp only [h0, if_true]
        exact h
      · simp only [h0]
        cases channelLookup s.channels ("typing:" ++ toString c) <;> simpa using h
  | unsub name => exact unsubscribeChannel_keys_nodup s name h
  | unsubAll => exact List.nodup_nil
  | doCleanup => exact List.nodup_nil

theorem runRT_keys_nodup (ops : List RTOp) :
    ((runRT ops).channels.map Prod.fst).Nodup := by
  suffices h : ∀ s : RTState, (s.channels.map Prod.fst).Nodup →
      ((ops.foldl applyRTOp s).channels.map Prod.fst).Nodup by
    exact h RTState.start (by simp [RTState.start])
  induction ops with
  | nil => exact fun s hs => hs
  | cons op rest ih =>
    intro s hs
    rw [List.foldl_cons]
    exact ih _ (applyRTOp_keys_nodup s op hs)

theorem subscribeTopic_lookup (s : RTState) (name : String) :
    channelLookup ((subscribeTopic s name).2).channels name =
      some (subscribeTopic s name).1 :=
  channelLookup_mapSet _ name _

theorem subscribeTopic_removes_old (s : RTState) (name : String) (cid : Nat)
    (h : channelLookup s.channels name = some cid) :
    cid ∈ ((subscribeTopic s name).2).removed := by
  obtain ⟨p, hp, hp2⟩ : ∃ p, s.channels.find? (fun q => q.1 == name) = some p ∧
      p.2 = cid := by
    unfold channelLookup at h
    cases hf : s.channels.find? (fun q => q.1 == name) with
    | none => rw [hf] at h; simp at h
    | some p =>
      rw [hf] at h
      simp only [Option.map_some'] at h
      exact ⟨p, rfl, by injection h⟩
  show cid ∈ (unsubscribeChannel s name).removed
  simp only [unsubscribeChannel, hp]
  simp [hp2]

/-- Claim C8: the channel table keeps at most one live subscription per topic
key across every call sequence on a fresh service; subscribing to a topic
that already has a subscription tears the previous channel down (it reaches
removeChannel) and replaces it — the table then maps the key to the fresh
channel — and after unsubscribe(topic) the key is absent, while
unsubscribeAll() empties the table. -/
theorem subscription_manager_unique :
    (∀ ops : List RTOp, ((runRT ops).channels.map Prod.fst).Nodup) ∧
    (∀ (s : RTState) (name : String) (cid : Nat),
      channelLookup s.channels name = some cid →
      channelLookup ((subscribeTopic s name).2).channels name =
          some (subscribeTopic s name).1 ∧
        cid ∈ ((subscribeTopic s name).2).removed) ∧
    (∀ (s : RTState) (name : String),
      channelLookup (unsubscribeChannel s name).channels name = none) ∧
    (∀ s : RTState, (unsubscribeAll s).channels = []) := by
  refine ⟨runRT_keys_nodup, ?_, ?_, ?_⟩
  · intro s name cid h
    exact ⟨subscribeTopic_lookup s name, subscribeTopic_removes_old s name cid h⟩
  · intro s name
    exact unsubscribeChannel_lookup s name
  · intro s
    rfl

/-- Witness for C8: re-subscribing the live "messages:1" topic replaces the
entry and tears down the old channel handle 5. -/
theorem subscription_manager_unique_witness :
    channelLookup ((subscribeTopic sampleRT "messages:1").2).channels "messages:1" =
        some (subscribeTopic sampleRT "messages:1").1 ∧
      5 ∈ ((subscribeTopic sampleRT "messages:1").2).removed :=
  subscription_manager_unique.2.1 sampleRT "messages:1" 5 (by rfl)

/-! The typing presence handler (Claim C9) and sendTyping (Claim C10). -/

theorem computeTypingUsers_mem (localUser : Option Nat)
    (st : List (String × List PresenceRec)) (uid : Nat) (name : String) :
    (uid, name) ∈ computeTypingUsers localUser st ↔
      (localUser ≠ some uid ∧ ∃ key ps p, (key, ps) ∈ st ∧ ps.head? = some p ∧
        p.typing = true ∧ p.userId = uid ∧ p.username = name) := by
  induction st with
  | nil => simp [computeTypingUsers]
  | cons entry rest ih =>
    obtain ⟨k, ps⟩ := entry
    cases ps with
    | nil =>
      rw [show computeTypingUsers localUser ((k, []) :: rest) =
          computeTypingUsers localUser rest from rfl, ih]
      constructor
      · rintro ⟨hne, key, ps, p, hmem, hh⟩
        exact ⟨hne, key, ps, p, List.mem_cons_of_mem _ hmem, hh⟩
      · rintro ⟨hne, key, ps, p, hmem, hhead, hrest⟩
        rcases List.mem_cons.mp hmem with hEq | hmem2
        · cases hEq; simp at hhead
        · exact ⟨hne, key, ps, p, hmem2, hhead, hrest⟩
    | cons p ptail =>
      by_cases hc : (p.typing && !(localUser == some p.userId)) = true
      · obtain ⟨ht, hne0⟩ := Bool.and_eq_true_iff.mp hc
        have hneq : localUser ≠ some p.userId := by
          intro hEq
          rw [hEq] at hne0
          simp at hne0
        rw [show computeTypingUsers localUser ((k, p :: ptail) :: rest) =
            (p.userId, p.username) :: computeTypingUsers localUser rest from by
          simp [computeTypingUsers, hc]]
        rw [List.mem_cons, ih]
        constructor
        · rintro (hEq | ⟨hne, key, ps, q, hmem, hh⟩)
          · injection hEq with h1 h2
            subst h1; subst h2
            exact ⟨hneq, k, p :: ptail, p, List.mem_cons_self _ _, rfl, ht, rfl, rfl⟩
          · exact ⟨hne, key, ps, q, List.mem_cons_of_mem _ hmem, hh⟩
        · rintro ⟨hne, key, ps, q, hmem, hhead, htyp, huid, hname⟩
          rcases List.mem_cons.mp hmem with hEq | hmem2
          · left
            injection hEq with hk hps
            subst hps
            simp only [List.head?_cons, Option.some.injEq] at hhead
            subst hhead
            rw [huid, hname]
          · right
            exact ⟨hne, key, ps, q, hmem2, hhead, htyp, huid, hname⟩
      · rw [show computeTypingUsers localUser ((k, p :: ptail) :: rest) =
            computeTypingUsers localUser rest from by
          simp [computeTypingUsers, hc]]
        rw [ih]
        constructor
        · rintro ⟨hne, key, ps, q, hmem, hh⟩
          exact ⟨hne, key, ps, q, List.mem_cons_of_mem _ hmem, hh⟩
        · rintro ⟨hne, key, ps, q, hmem, hhead, htyp, huid, hname⟩
          rcases List.mem_cons.mp hmem with hEq | hmem2
          · exfalso
            injection hEq with hk hps
            subst hps
            simp only [List.head?_cons, Option.some.injEq] at hhead
            subst hhead
            apply hc
            rw [htyp, huid]
            simp
            intro hEq2
            exact hne (by rw [hEq2])
          · exact ⟨hne, key, ps, q, hmem2, hhead, htyp, huid, hname⟩

/-- Claim C9: the typing-user list the sync handler hands to onTypingChange
contains exactly the users whose (first) presence record is marked typing and
is not the local user; in particular the local user's own id never appears in
the list delivered to that user's callback. -/
theorem typing_sync_excludes_local (st : List (String × List PresenceRec)) (u : Nat) :
    (∀ (uid : Nat) (name : String),
      (uid, name) ∈ computeTypingUsers (some u) st ↔
        (uid ≠ u ∧ ∃ key ps p, (key, ps) ∈ st ∧ ps.head? = some p ∧
          p.typing = true ∧ p.userId = uid ∧ p.username = name)) ∧
    (∀ name : String, (u, name) ∉ computeTypingUsers (some u) st) := by
  constructor
  · intro uid name
    rw [computeTypingUsers_mem]
    constructor
    · rintro ⟨hne, h⟩
      exact ⟨fun hEq => hne (by rw [hEq]), h⟩
    · rintro ⟨hne, h⟩
      exact ⟨fun hEq => hne (by injection hEq with h2; exact h2.symm), h⟩
  · intro name hmem
    have h := (computeTypingUsers_mem (some u) st u name).mp hmem
    exact h.1 rfl

/-- Witness for C9 at the sample presence state: alice (user 1, typing) is
delivered to user 2, and user 2 never appears in their own list. -/
theorem typing_sync_excludes_local_witness :
    (1, "alice") ∈ computeTypingUsers (some 2) sampleSync ∧
    ∀ name : String, (2, name) ∉ computeTypingUsers (some 2) sampleSync := by
  constructor
  · refine ((typing_sync_excludes_local sampleSync 2).1 1 "alice").mpr ?_
    refine ⟨by decide, "1", [{ userId := 1, username := "alice", typing := true }],
      { userId := 1, username := "alice", typing := true }, ?_, rfl, rfl, rfl, rfl⟩
    simp [sampleSync]
  · exact (typing_sync_excludes_local sampleSync 2).2

/-- Claim C10: sendTyping publishes nothing and leaves the service state
unchanged when the service holds no (truthy) user id or the typing channel of
the conversation is not in the table; whenever it does publish, the channel
published on is the one stored under the conversation's typing key and the
record carries the initialized user id; the service state is never mutated. -/
theorem sendTyping_silent_noop (s : RTState) (c : Nat) (uname : String) (t : Bool) :
    (s.userId = none → sendTyping s c uname t = (s, none)) ∧
    (channelLookup s.channels ("typing:" ++ toString c) = none →
      sendTyping s c uname t = (s, none)) ∧
    (∀ (ch : Nat) (payload : TrackPayload),
      (sendTyping s c uname t).2 = some (ch, payload) →
      channelLookup s.channels ("typing:" ++ toString c) = some ch ∧
        ∃ u, s.userId = some u ∧ payload.userId = u) ∧
    (sendTyping s c uname t).1 = s := by
  refine ⟨?_, ?_, ?_, ?_⟩
  · intro h
    simp [sendTyping, h]
  · intro h
    cases hu : s.userId with
    | none => simp [sendTyping, hu]
    | some uid =>
      by_cases h0 : (uid == 0) = true
      · simp [sendTyping, hu, h0]
      · simp [sendTyping, hu, h0, h]
  · intro ch payload hp
    cases hu : s.userId with
    | none => simp [sendTyping, hu] at hp
    | some uid =>
      by_cases h0 : (uid == 0) = true
      · simp [sendTyping, hu, h0] at hp
      · cases hl : channelLookup s.channels ("typing:" ++ toString c) with
        | none => simp [sendTyping, hu, h0, hl] at hp
        | some ch2 =>
          simp only [sendTyping, hu, h0, hl, Bool.false_eq_true, if_false,
            Option.some.injEq] at hp
          have hch : ch2 = ch := congrArg Prod.fst hp
          have hpay : payload =
              { userId := uid, username := uname, typing := t } :=
            (congrArg Prod.snd hp).symm
          subst hch
          exact ⟨rfl, uid, rfl, by rw [hpay]⟩
  · cases hu : s.userId with
    | none => simp [sendTyping, hu]
    | some uid =>
      by_cases h0 : (uid == 0) = true
      · simp [sendTyping, hu, h0]
      · cases hl : channelLookup s.channels ("typing:" ++ toString c) with
        | none => simp [sendTyping, hu, h0, hl]
        | some ch2 => simp [sendTyping, hu, h0, hl]

/-- Witness for C10: a fresh, uninitialized service publishes nothing. -/
theorem sendTyping_silent_noop_witness :
    sendTyping RTState.start 1 "alice" true = (RTState.start, none) :=
  (sendTyping_silent_noop RTState.start 1 "alice" true).1 rfl

end AnyoneHub
